import Mathlib

/- Shallow embedding of the "guess the hidden item" Discord bot, translated
from src/guessing_bot_final_en.py (the comprehensive variant; the simpler
src/guessing_bot.py agrees on all of the logic modelled here except where a
difference is noted in a doc comment).

Modelling conventions:
* Python dicts with integer keys become association lists with Python
  assignment semantics (update in place when the key is present, otherwise
  append, preserving insertion order as CPython does).
* Wall-clock datetimes become integer second counts; timedelta(minutes=m)
  becomes 60*m seconds.  datetime.isoformat and datetime.fromisoformat
  become a decimal codec on those counts with the same essential shape:
  an injective rendering whose parse fails on non-timestamp text.
* Python strings are Lean Strings; str.strip, str.lower and str.split are
  implemented over the underlying character list (the ASCII fragment the
  bot actually compares).
* Discord I/O (channel lookup, bot readiness, role mutation, message
  sending) is an external collaborator per the spec; every guard the code
  performs on such a value is kept as an explicit Bool parameter, and the
  best-effort role mutation outcome is likewise a Bool parameter.
-/

/-- Python dict lookup for an integer-keyed dict modelled as an association
list: the value bound to the key, if present. -/
def dictLookup {α : Type} : List (Nat × α) → Nat → Option α
  | [], _ => none
  | (k, v) :: rest, key => if key = k then some v else dictLookup rest key

/-- Python dict assignment of v to key: replace the binding in place when the
key is present, otherwise append a new binding at the end. -/
def dictSet {α : Type} : List (Nat × α) → Nat → α → List (Nat × α)
  | [], key, v => [(key, v)]
  | (k, w) :: rest, key, v =>
    if key = k then (k, v) :: rest else (k, w) :: dictSet rest key v

/-- The keys of a dict, in insertion order. -/
def dictKeys {α : Type} (d : List (Nat × α)) : List Nat := d.map Prod.fst

/-- Python str.strip() on a character list: remove leading and trailing
whitespace characters. -/
def pyStripList (cs : List Char) : List Char :=
  ((cs.dropWhile Char.isWhitespace).reverse.dropWhile Char.isWhitespace).reverse

/-- Python str.strip() on a string. -/
def pyStrip (s : String) : String := String.mk (pyStripList s.toList)

/-- Python str.lower() on the ASCII letters the bot compares. -/
def pyLower (s : String) : String := String.mk (s.toList.map Char.toLower)

/-- Python str.split(sep) for a one-character separator: the maximal runs of
characters between separator occurrences, keeping empty runs, so that for
example splitting "a\nb" on the newline yields the two lines. -/
def splitOnChar (sep : Char) : List Char → List (List Char)
  | [] => [[]]
  | c :: rest =>
    match splitOnChar sep rest with
    | [] => [[]]
    | cur :: done => if c = sep then [] :: cur :: done else (c :: cur) :: done

/-- The decimal digits of a natural number, most significant first: the digit
sequence of str(n) for a nonnegative Python int. -/
def natDigits (n : Nat) : List Nat :=
  if n < 10 then [n] else natDigits (n / 10) ++ [n % 10]
decreasing_by exact Nat.div_lt_self (by omega) (by omega)

/-- The character of one decimal digit. -/
def digitChar (d : Nat) : Char := Char.ofNat (48 + d)

/-- str(n) for a nonnegative Python int: its decimal rendering. -/
def pyStr (n : Nat) : String := String.mk ((natDigits n).map digitChar)

/-- int(s) for decimal strings: parse a nonempty all-digit string, fail (a
ValueError in Python) otherwise.  Python int() additionally tolerates
surrounding whitespace and an optional sign, which never arises for the
str(int) keys json.dump writes. -/
def pyIntParse (s : String) : Option Nat :=
  let cs := s.toList
  if !cs.isEmpty && cs.all Char.isDigit then
    some (cs.foldl (fun a c => 10 * a + (c.toNat - 48)) 0)
  else none

/-- CONFIG REQUIRED_HINTS of guessing_bot_final_en.py. -/
def REQUIRED_HINTS : Nat := 7

/-- CONFIG GUESS_COOLDOWN_MINUTES of guessing_bot_final_en.py. -/
def GUESS_COOLDOWN_MINUTES : Nat := 30

/-- CONFIG DEFAULT_HINT_TIMING_MINUTES of guessing_bot_final_en.py. -/
def DEFAULT_HINT_TIMING_MINUTES : Nat := 60

/-- timedelta(minutes=m), in seconds. -/
def minutesToSeconds (m : Nat) : Int := 60 * m

/-- CONFIG WINNER_ROLES_CONFIG: minimum win count to the reward role id. -/
def WINNER_ROLES_CONFIG : List (Nat × Nat) :=
  [(1, 1441693698776764486), (5, 1441693984266129469), (10, 1441694043477381150),
   (25, 1441694109268967505), (50, 1441694179011989534), (100, 1441694438345674855)]

/-- One entry of current_hints_revealed: the dict holding hint_number and text
(the simpler variant also stores a channel id, which is presentation state). -/
structure RevealedHint where
  hint_number : Nat
  text : String
  deriving DecidableEq, Repr

/-- The module-level game state of guessing_bot_final_en.py. -/
structure GameState where
  correct_answer : Option String
  current_hints_storage : List (Nat × String)
  current_hints_revealed : List RevealedHint
  is_game_active : Bool
  hint_timing_minutes : Nat
  last_hint_reveal_time : Option Int
  user_wins : List (Nat × Nat)
  last_guess_time : List (Nat × Int)
  deriving DecidableEq, Repr

/-- The module globals right after initialization. -/
def initState : GameState :=
  { correct_answer := none
    current_hints_storage := []
    current_hints_revealed := []
    is_game_active := false
    hint_timing_minutes := DEFAULT_HINT_TIMING_MINUTES
    last_hint_reveal_time := none
    user_wins := []
    last_guess_time := [] }

/-- Which reply branch a configuration command took. -/
inductive ConfigResult
  | ok
  | gameRunning
  | badHintNumber
  | wrongHintCount
  | badInterval
  deriving DecidableEq, Repr

/-- The setitem command body (set_item_name): refuse while a game is active,
otherwise store the stripped item name. -/
def set_item_name (item_name : String) (st : GameState) : ConfigResult × GameState :=
  if st.is_game_active then (.gameRunning, st)
  else (.ok, { st with correct_answer := some (pyStrip item_name) })

/-- The sethint command body (set_hint): refuse while a game is active, bound
the hint number to 1..REQUIRED_HINTS, otherwise store the stripped text. -/
def set_hint (number : Nat) (hint_text : String) (st : GameState) : ConfigResult × GameState :=
  if st.is_game_active then (.gameRunning, st)
  else if !(1 ≤ number && number ≤ REQUIRED_HINTS) then (.badHintNumber, st)
  else (.ok, { st with
    current_hints_storage := dictSet st.current_hints_storage number (pyStrip hint_text) })

/-- The setallhints command body (set_all_hints): split the input on newlines,
strip each line, drop empty lines, require exactly REQUIRED_HINTS lines, then
rebuild the hint dict from scratch with keys 1..REQUIRED_HINTS in order, as
the enumerate(hint_lines, 1) loop does. -/
def set_all_hints (hints_text : String) (st : GameState) : ConfigResult × GameState :=
  if st.is_game_active then (.gameRunning, st)
  else
    let hint_lines := ((splitOnChar '\n' hints_text.toList).map pyStripList).filter
      (fun l => !l.isEmpty)
    if hint_lines.length ≠ REQUIRED_HINTS then (.wrongHintCount, st)
    else
      let storage := (List.zip (List.range' 1 hint_lines.length)
        (hint_lines.map String.mk)).foldl (fun d p => dictSet d p.1 p.2) []
      (.ok, { st with current_hints_storage := storage })

/-- The sethinttiming command body (set_hint_timing): refuse while a game is
active, bound the interval to 1..60 minutes, otherwise store it. -/
def set_hint_timing (minutes : Nat) (st : GameState) : ConfigResult × GameState :=
  if st.is_game_active then (.gameRunning, st)
  else if minutes < 1 ∨ minutes > 60 then (.badInterval, st)
  else (.ok, { st with hint_timing_minutes := minutes })

/-- Which branch the start command took. -/
inductive StartResult
  | ok
  | alreadyRunning
  | roundIncomplete
  | keyError
  | channelMissing
  deriving DecidableEq, Repr

/-- The start command body (start_game): refuse when a game is already active;
refuse (the RoundIncomplete reply) when the item is unset or the hint dict
does not hold exactly REQUIRED_HINTS entries; otherwise flip to active, reveal
hint 1, and stamp the reveal time.  channel_ok models bot.get_channel finding
the configured hint channel; when it does not, the code cancels the start
after having already stamped the reveal time.  The keyError branch mirrors the
unguarded current_hints_storage subscript with key 1, which the code reaches
after already flipping the globals; it is unreachable from configured
states. -/
def start_game (channel_ok : Bool) (now : Int) (st : GameState) : StartResult × GameState :=
  if st.is_game_active then (.alreadyRunning, st)
  else if st.correct_answer.isNone || st.current_hints_storage.length ≠ REQUIRED_HINTS then
    (.roundIncomplete, st)
  else
    match dictLookup st.current_hints_storage 1 with
    | none => (.keyError, { st with is_game_active := true, current_hints_revealed := [] })
    | some first_hint_text =>
      if channel_ok then
        (.ok, { st with
          is_game_active := true
          current_hints_revealed := [⟨1, first_hint_text⟩]
          last_hint_reveal_time := some now })
      else
        (.channelMissing, { st with
          is_game_active := false
          current_hints_revealed := []
          last_hint_reveal_time := some now })

/-- One firing of the tasks.loop(minutes=1) hint_timer body.  ready models
bot.is_ready() and channel_ok models bot.get_channel finding the hint
channel.  The guard clause makes the tick a no-op when the bot is not ready,
no game is active, no reveal time is stamped, or the hint dict is empty.
When the next hint is due and configured it is appended to
current_hints_revealed and the reveal time is restamped to now; the
loop-stop call once every hint is out only touches scheduler state. -/
def hint_timer (ready : Bool) (channel_ok : Bool) (now : Int) (st : GameState) : GameState :=
  if !ready || !st.is_game_active || st.last_hint_reveal_time = none
      || st.current_hints_storage.isEmpty then st
  else
    match st.last_hint_reveal_time with
    | none => st
    | some last =>
      if now ≥ last + minutesToSeconds st.hint_timing_minutes then
        let next_hint_number := st.current_hints_revealed.length + 1
        match dictLookup st.current_hints_storage next_hint_number with
        | some hint_text =>
          if channel_ok then
            { st with
              current_hints_revealed :=
                st.current_hints_revealed ++ [⟨next_hint_number, hint_text⟩]
              last_hint_reveal_time := some now }
          else st
        | none => st
      else st

/-- Which branch the revealhint command took. -/
inductive RevealResult
  | ok (hint_number : Nat)
  | noActiveRound
  | allRevealed
  | notConfigured
  | channelMissing
  deriving DecidableEq, Repr

/-- The revealhint command body (reveal_hint_manual): with an active game and
hints still unrevealed, skip the time gate, reveal the next sequential hint
immediately and restamp the reveal time to now. -/
def reveal_hint_manual (channel_ok : Bool) (now : Int) (st : GameState) :
    RevealResult × GameState :=
  if !st.is_game_active then (.noActiveRound, st)
  else
    let next_hint_number := st.current_hints_revealed.length + 1
    if next_hint_number > REQUIRED_HINTS then (.allRevealed, st)
    else
      match dictLookup st.current_hints_storage next_hint_number with
      | some hint_text =>
        if channel_ok then
          (.ok next_hint_number, { st with
            current_hints_revealed :=
              st.current_hints_revealed ++ [⟨next_hint_number, hint_text⟩]
            last_hint_reveal_time := some now })
        else (.channelMissing, st)
      | none => (.notConfigured, st)

/-- The reverse-sorted threshold list sorted(WINNER_ROLES_CONFIG.keys(),
reverse=True) inside award_winner_roles. -/
def sorted_wins_levels : List Nat := [100, 50, 25, 10, 5, 1]

/-- The Reward Policy scan of award_winner_roles: the role id of the first
(highest) threshold that the win count reaches, if any. -/
def tier_for (wins_count : Nat) : Option Nat :=
  (sorted_wins_levels.find? (fun level => wins_count ≥ level)).bind
    (fun level => dictLookup WINNER_ROLES_CONFIG level)

/-- The lower-tier reward roles award_winner_roles removes: every role the
member holds that appears in WINNER_ROLES_CONFIG other than the achieved
one. -/
def roles_to_remove (member_roles : List Nat) (achieved_role_id : Nat) : List Nat :=
  member_roles.filter
    (fun r => (WINNER_ROLES_CONFIG.map Prod.snd).contains r && r != achieved_role_id)

/-- The side-effect-free part of award_winner_roles: which role to grant (none
when the member already holds it or no threshold is reached) and which roles
to revoke. -/
structure RewardAction where
  grant : Option Nat
  revoke : List Nat
  deriving DecidableEq, Repr

/-- Compute the reward action of award_winner_roles from the win count and the
roles the member currently holds. -/
def award_action (wins_count : Nat) (member_roles : List Nat) : RewardAction :=
  match tier_for wins_count with
  | none => { grant := none, revoke := [] }
  | some achieved_role_id =>
    { grant := if member_roles.contains achieved_role_id then none else some achieved_role_id
      revoke := roles_to_remove member_roles achieved_role_id }

/-- What the caller observes of the reward step. -/
inductive RewardOutcome
  | applied
  | failedReported
  deriving DecidableEq, Repr

/-- Applying the reward action through Discord (member.add_roles and
member.remove_roles in award_winner_roles) runs inside a try block whose
except clauses catch discord.Forbidden and every other exception and only
print: the caller observes at most a reported failure, never an exception
and never a game-state change.  grant_ok says whether the platform calls
succeed. -/
def apply_reward (grant_ok : Bool) (_action : RewardAction) : RewardOutcome :=
  if grant_ok then .applied else .failedReported

/-- Which branch the guess command took. -/
inductive GuessResult
  | noActiveRound
  | wrongChannel
  | cooldownActive (remaining_seconds : Int)
  | internalError
  | win (new_wins : Nat) (reward : RewardOutcome)
  | incorrect
  deriving DecidableEq, Repr

/-- The answer check and winner logic of the guess command (guess_item of
guessing_bot_final_en.py), taking the state st1 in which last_guess_time has
already been stamped.  grant_ok models the Discord role mutations succeeding
and member_roles the guesser's current roles.  On a win the code flips the
game inactive, increments and saves the win ledger, runs the best-effort
reward step, and then resets the round globals; the assignment clearing
current_hints_storage binds a function-local name because that name is
missing from the global declaration of guess_item, so the module-level hint
dict is left unchanged, which this embedding reproduces. -/
def guess_item_check (grant_ok : Bool) (member_roles : List Nat) (user : Nat)
    (guess : String) (st1 : GameState) : GuessResult × GameState :=
  match st1.correct_answer with
  | none => (.internalError, st1)
  | some answer =>
    if pyLower (pyStrip guess) = pyLower answer then
      (.win ((dictLookup st1.user_wins user).getD 0 + 1)
        (apply_reward grant_ok
          (award_action ((dictLookup st1.user_wins user).getD 0 + 1) member_roles)),
        { st1 with
          is_game_active := false
          user_wins := dictSet st1.user_wins user
            ((dictLookup st1.user_wins user).getD 0 + 1)
          correct_answer := none
          current_hints_revealed := []
          last_hint_reveal_time := none })
    else (.incorrect, st1)

/-- The tail of the guess command once the cooldown gate is passed: stamp
last_guess_time with now, then run guess_item_check. -/
def guess_item_submit (grant_ok : Bool) (member_roles : List Nat) (user : Nat)
    (guess : String) (now : Int) (st : GameState) : GuessResult × GameState :=
  guess_item_check grant_ok member_roles user guess
    { st with last_guess_time := dictSet st.last_guess_time user now }

/-- The guess command body (guess_item of guessing_bot_final_en.py), cooldown
gate first: when the user has a timestamp within the cooldown window the
attempt is rejected with the remaining wait and the state untouched;
otherwise the submission is processed by guess_item_submit. -/
def guess_item (in_wins_channel : Bool) (grant_ok : Bool) (member_roles : List Nat)
    (user : Nat) (guess : String) (now : Int) (st : GameState) : GuessResult × GameState :=
  if !st.is_game_active then (.noActiveRound, st)
  else if in_wins_channel then (.wrongChannel, st)
  else
    match dictLookup st.last_guess_time user with
    | some t =>
      if now - t < minutesToSeconds GUESS_COOLDOWN_MINUTES then
        (.cooldownActive (minutesToSeconds GUESS_COOLDOWN_MINUTES - (now - t)), st)
      else guess_item_submit grant_ok member_roles user guess now st
    | none => guess_item_submit grant_ok member_roles user guess now st

/-- The stop command body (stop_game): unconditionally clear the whole round
state; the timer-stop call only touches scheduler state. -/
def stop_game (st : GameState) : GameState :=
  { st with
    is_game_active := false
    correct_answer := none
    current_hints_revealed := []
    current_hints_storage := []
    last_hint_reveal_time := none }

/-- One admin configuration command targeting a not-yet-active round. -/
inductive ConfigStep
  | setItem (item_name : String)
  | setHint (number : Nat) (hint_text : String)
  | setAllHints (hints_text : String)
  | setTiming (minutes : Nat)

/-- Run one configuration command for its state effect. -/
def applyConfig (c : ConfigStep) (st : GameState) : GameState :=
  match c with
  | .setItem s => (set_item_name s st).2
  | .setHint n t => (set_hint n t st).2
  | .setAllHints s => (set_all_hints s st).2
  | .setTiming m => (set_hint_timing m st).2

/-- Run a sequence of configuration commands from a given state. -/
def applyConfigs (steps : List ConfigStep) (st : GameState) : GameState :=
  steps.foldl (fun s c => applyConfig c s) st

/-- Any one trigger that mutates the game globals: an admin configuration
command, the start command, a timer tick, a manual reveal, a guess, or the
stop command. -/
inductive Step
  | config (c : ConfigStep)
  | start (channel_ok : Bool) (now : Int)
  | tick (ready : Bool) (channel_ok : Bool) (now : Int)
  | manualReveal (channel_ok : Bool) (now : Int)
  | guess (in_wins_channel : Bool) (grant_ok : Bool) (member_roles : List Nat)
      (user : Nat) (text : String) (now : Int)
  | stop

/-- Run one trigger for its state effect. -/
def applyStep (p : Step) (st : GameState) : GameState :=
  match p with
  | .config c => applyConfig c st
  | .start ch now => (start_game ch now st).2
  | .tick r ch now => hint_timer r ch now st
  | .manualReveal ch now => (reveal_hint_manual ch now st).2
  | .guess wc gk roles user text now => (guess_item wc gk roles user text now st).2
  | .stop => stop_game st

/-- The state the module globals reach after a sequence of triggers starting
from initialization. -/
def runSteps (steps : List Step) : GameState :=
  steps.foldl (fun s p => applyStep p s) initState

/-- A parsed JSON value: what json.load returns when it succeeds. -/
inductive Json
  | null
  | jbool (b : Bool)
  | jnum (n : Int)
  | jstr (s : String)
  | jarr (elems : List Json)
  | jobj (fields : List (String × Json))

/-- Python truthiness of a loaded JSON value. -/
def truthy : Json → Bool
  | .null => false
  | .jbool b => b
  | .jnum n => n != 0
  | .jstr s => !s.isEmpty
  | .jarr l => !l.isEmpty
  | .jobj l => !l.isEmpty

/-- The exception classes the loaders can raise past their except clause,
which catches only json.JSONDecodeError. -/
inductive PyErr
  | valueError
  | typeError
  | attributeError
  deriving DecidableEq, Repr

/-- What a persistence file holds when the loader runs: nothing, text that
json.load rejects with json.JSONDecodeError, or text parsing to a JSON
value. -/
inductive FileContent
  | missing
  | unparseable
  | parsed (j : Json)

/-- dict.get(key, default) on a parsed JSON object. -/
def jsonGetD (fields : List (String × Json)) (key : String) (dflt : Json) : Json :=
  ((fields.find? (fun p => p.1 == key)).map Prod.snd).getD dflt

/-- Using a parsed JSON value as a dict: .get or .items on anything that is
not an object raises AttributeError. -/
def asObj : Json → Except PyErr (List (String × Json))
  | .jobj fields => .ok fields
  | _ => .error .attributeError

/-- The dict comprehension converting string keys back to integers, as both
loaders run it: build a fresh dict left to right, int(k) raising ValueError
on a non-numeric key. -/
def intKeyed : List (String × Json) → List (Nat × Json) → Except PyErr (List (Nat × Json))
  | [], d => .ok d
  | (k, v) :: rest, d =>
    match pyIntParse k with
    | some kn => intKeyed rest (dictSet d kn v)
    | none => .error .valueError

/-- datetime.fromisoformat on the rendering its isoformat counterpart writes
for our integer timestamps: parse the decimal count back, raising ValueError
on any other string. -/
def fromisoformat (s : String) : Except PyErr Int :=
  match pyIntParse s with
  | some n => .ok (Int.ofNat n)
  | none => .error .valueError

/-- The last_hint_reveal_time handling of load_game_state: a falsy loaded
value leaves the timestamp unset; a truthy one is handed to
datetime.fromisoformat, which raises TypeError when it is not a string and
ValueError when the string is not a timestamp. -/
def parseLastReveal (v : Json) : Except PyErr (Option Int) :=
  if truthy v then
    match v with
    | .jstr s => (fromisoformat s).map some
    | _ => .error .typeError
  else .ok none

/-- The module globals load_game_state assigns, holding the loaded values raw
where the code stores them without a type check. -/
structure LoadedGameGlobals where
  is_game_active : Json
  correct_answer : Json
  current_hints_storage : List (Nat × Json)
  current_hints_revealed : Json
  hint_timing_minutes : Json
  last_hint_reveal_time : Option Int

/-- The values those globals hold right after module initialization, when the
loader runs. -/
def defaultGameGlobals : LoadedGameGlobals :=
  { is_game_active := .jbool false
    correct_answer := .null
    current_hints_storage := []
    current_hints_revealed := .jarr []
    hint_timing_minutes := .jnum 60
    last_hint_reveal_time := none }

/-- load_game_state of guessing_bot_final_en.py: a missing file leaves the
globals untouched; a file json.load rejects is caught, reported, and only
flips is_game_active to False; a parsed file is read field by field with
dict.get defaults, the hint keys pushed back to integers and the timestamp
reparsed, either of which can raise past the except clause.  The Bool of the
result records whether the corruption warning was printed. -/
def load_game_state (file : FileContent) (g : LoadedGameGlobals) :
    Except PyErr (LoadedGameGlobals × Bool) :=
  match file with
  | .missing => .ok (g, false)
  | .unparseable => .ok ({ g with is_game_active := .jbool false }, true)
  | .parsed j =>
    match asObj j with
    | .error e => .error e
    | .ok state =>
      match asObj (jsonGetD state "current_hints_storage" (.jobj [])) with
      | .error e => .error e
      | .ok rawStorage =>
        match intKeyed rawStorage [] with
        | .error e => .error e
        | .ok storage =>
          match parseLastReveal (jsonGetD state "last_hint_reveal_time" .null) with
          | .error e => .error e
          | .ok last =>
            .ok ({ is_game_active := jsonGetD state "is_game_active" (.jbool false)
                   correct_answer := jsonGetD state "correct_answer" .null
                   current_hints_storage := storage
                   current_hints_revealed :=
                     jsonGetD state "current_hints_revealed" (.jarr [])
                   hint_timing_minutes := jsonGetD state "hint_timing_minutes" (.jnum 60)
                   last_hint_reveal_time := last }, false)

/-- load_user_wins of guessing_bot_final_en.py (identical in the simpler
variant): a missing file yields the empty ledger; a file json.load rejects is
caught and reported, yielding the empty ledger; a parsed file must be an
object and has its keys pushed back to integers, either of which can raise
past the except clause.  The Bool records whether the corruption warning was
printed. -/
def load_user_wins (file : FileContent) : Except PyErr (List (Nat × Json) × Bool) :=
  match file with
  | .missing => .ok ([], false)
  | .unparseable => .ok ([], true)
  | .parsed j =>
    match asObj j with
    | .error e => .error e
    | .ok data =>
      match intKeyed data [] with
      | .error e => .error e
      | .ok wins => .ok (wins, false)

/-- json.dump(user_wins) in save_user_wins: a JSON object binding str(user_id)
to the integer win count, in dict order. -/
def save_user_wins (w : List (Nat × Nat)) : Json :=
  .jobj (w.map (fun p => (pyStr p.1, .jnum (Int.ofNat p.2))))

/-- Read a loaded ledger back as integer win counts, the only values the
engine ever stores there. -/
def winsOfLoaded : List (Nat × Json) → Option (List (Nat × Nat))
  | [] => some []
  | (k, .jnum (.ofNat v)) :: rest => (winsOfLoaded rest).map (fun r => (k, v) :: r)
  | _ => none

/-- Seven hint lines for a first concrete round. -/
def sevenLinesA : String := "alpha\nbeta\ngamma\ndelta\nepsilon\nzeta\neta"

/-- Seven hint lines for a second concrete round. -/
def sevenLinesB : String := "one\ntwo\nthree\nfour\nfive\nsix\nseven"

/-- A concrete trigger sequence configuring and starting a first round. -/
def activeRoundSteps : List Step :=
  [.config (.setItem "apple"), .config (.setAllHints sevenLinesA), .start true 0]

/-- A concrete trigger sequence in which user 42 guesses wrong at time 10,
user 7 wins the round at time 20, a fresh round is configured, and that round
activates at time 100. -/
def carriedCooldownSteps : List Step :=
  activeRoundSteps ++
    [.guess false true [] 42 "pear" 10,
     .guess false true [] 7 "apple" 20,
     .config (.setItem "mango"),
     .config (.setAllHints sevenLinesB),
     .start true 100]

/-- The hint dict is well formed: its keys are distinct and lie in
1..REQUIRED_HINTS.  Every reachable state satisfies this, because set_hint
bounds its argument and set_all_hints rebuilds the dict with keys
1..REQUIRED_HINTS. -/
def StorageInv (st : GameState) : Prop :=
  (dictKeys st.current_hints_storage).Nodup ∧
  ∀ k ∈ dictKeys st.current_hints_storage, 1 ≤ k ∧ k ≤ REQUIRED_HINTS

/-- The revealed hints carry exactly the indices 1, 2, ..., len in order, and
never more than REQUIRED_HINTS of them. -/
def RevealedSeq (st : GameState) : Prop :=
  st.current_hints_revealed.map RevealedHint.hint_number =
    List.range' 1 st.current_hints_revealed.length ∧
  st.current_hints_revealed.length ≤ REQUIRED_HINTS

/-- The invariant every trigger preserves. -/
def StepInv (st : GameState) : Prop := StorageInv st ∧ RevealedSeq st

/-- Stated from the spec sentence for the guess comparison, to be compared
with the code: the guess with leading and trailing whitespace removed equals
the answer under case-insensitive comparison, internal whitespace kept. -/
def spec_guess_matches (guess answer : String) : Prop :=
  (pyStripList guess.toList).map Char.toLower = answer.toList.map Char.toLower

theorem dictLookup_isSome_iff {α : Type} (d : List (Nat × α)) (k : Nat) :
    (dictLookup d k).isSome = true ↔ k ∈ dictKeys d := by
  induction d with
  | nil => simp [dictLookup, dictKeys]
  | cons p rest ih =>
    obtain ⟨a, v⟩ := p
    by_cases h : k = a
    · simp [dictLookup, dictKeys, h]
    · simp only [dictLookup, dictKeys, List.map_cons, List.mem_cons, if_neg h]
      simpa [dictKeys, h] using ih

theorem dictLookup_dictSet_self {α : Type} (d : List (Nat × α)) (k : Nat) (v : α) :
    dictLookup (dictSet d k v) k = some v := by
  induction d with
  | nil => simp [dictSet, dictLookup]
  | cons p rest ih =>
    obtain ⟨a, w⟩ := p
    by_cases h : k = a
    · simp [dictSet, dictLookup, h]
    · simp [dictSet, dictLookup, h, ih]

theorem dictSet_of_not_mem {α : Type} (d : List (Nat × α)) (k : Nat) (v : α)
    (h : k ∉ dictKeys d) : dictSet d k v = d ++ [(k, v)] := by
  induction d with
  | nil => simp [dictSet]
  | cons p rest ih =>
    obtain ⟨a, w⟩ := p
    simp only [dictKeys, List.map_cons, List.mem_cons, not_or] at h
    simp [dictSet, h.1, ih (by simpa [dictKeys] using h.2)]

theorem dictKeys_dictSet {α : Type} (d : List (Nat × α)) (k : Nat) (v : α) :
    dictKeys (dictSet d k v) =
      if k ∈ dictKeys d then dictKeys d else dictKeys d ++ [k] := by
  induction d with
  | nil => simp [dictSet, dictKeys]
  | cons p rest ih =>
    obtain ⟨a, w⟩ := p
    by_cases h : k = a
    · simp [dictSet, dictKeys, h]
    · simp only [dictSet, if_neg h, dictKeys, List.map_cons]
      simp only [dictKeys] at ih
      rw [ih]
      by_cases hm : k ∈ List.map Prod.fst rest
      · simp [hm, List.mem_cons, h]
      · simp [hm, List.mem_cons, h]

theorem foldl_dictSet_fresh {α : Type} :
    ∀ (ps : List (Nat × α)) (d : List (Nat × α)),
      (∀ p ∈ ps, p.1 ∉ dictKeys d) → (ps.map Prod.fst).Nodup →
      ps.foldl (fun acc p => dictSet acc p.1 p.2) d = d ++ ps := by
  intro ps
  induction ps with
  | nil => intro d _ _; simp
  | cons p ps ih =>
    intro d hfresh hnd
    obtain ⟨a, v⟩ := p
    simp only [List.foldl_cons]
    rw [dictSet_of_not_mem d a v (hfresh (a, v) (List.mem_cons_self _ _))]
    simp only [List.map_cons, List.nodup_cons] at hnd
    rw [ih (d ++ [(a, v)]) ?_ hnd.2]
    · simp
    · intro q hq
      have h1 : q.1 ∉ dictKeys d := hfresh q (List.mem_cons_of_mem _ hq)
      have h2 : q.1 ≠ a := by
        intro hqa
        exact hnd.1 (hqa ▸ List.mem_map_of_mem Prod.fst hq)
      simp [dictKeys, List.mem_append, h2]
      simpa [dictKeys] using h1

theorem natDigits_lt_ten : ∀ n : Nat, ∀ d ∈ natDigits n, d < 10 := by
  intro n
  induction n using Nat.strong_induction_on with
  | _ n ih =>
    rw [natDigits]
    split
    · intro d hd
      simp only [List.mem_singleton] at hd
      omega
    · intro d hd
      rcases List.mem_append.mp hd with h1 | h2
      · exact ih (n / 10) (Nat.div_lt_self (by omega) (by omega)) d h1
      · simp only [List.mem_singleton] at h2
        subst h2
        exact Nat.mod_lt _ (by omega)

theorem natDigits_ne_nil (n : Nat) : natDigits n ≠ [] := by
  rw [natDigits]
  split
  · simp
  · simp

theorem foldl_natDigits (n : Nat) :
    (natDigits n).foldl (fun a d => 10 * a + d) 0 = n := by
  induction n using Nat.strong_induction_on with
  | _ n ih =>
    rw [natDigits]
    split
    · simp
    · rw [List.foldl_append, ih (n / 10) (Nat.div_lt_self (by omega) (by omega))]
      simp only [List.foldl_cons, List.foldl_nil]
      omega

theorem digitChar_facts :
    ∀ d : Nat, d < 10 → (digitChar d).isDigit = true ∧ (digitChar d).toNat - 48 = d := by
  decide

theorem foldl_map_digitChar :
    ∀ (ds : List Nat), (∀ d ∈ ds, d < 10) → ∀ (a : Nat),
      (ds.map digitChar).foldl (fun a c => 10 * a + (c.toNat - 48)) a =
        ds.foldl (fun a d => 10 * a + d) a := by
  intro ds
  induction ds with
  | nil => intro _ a; rfl
  | cons d ds ih =>
    intro h a
    simp only [List.map_cons, List.foldl_cons]
    rw [(digitChar_facts d (h d (List.mem_cons_self _ _))).2]
    exact ih (fun e he => h e (List.mem_cons_of_mem _ he)) _

theorem pyIntParse_pyStr (n : Nat) : pyIntParse (pyStr n) = some n := by
  have htl : (pyStr n).toList = (natDigits n).map digitChar := rfl
  unfold pyIntParse
  rw [htl]
  have hne : ((natDigits n).map digitChar).isEmpty = false := by
    cases hnd : natDigits n with
    | nil => exact absurd hnd (natDigits_ne_nil n)
    | cons d ds => simp [List.isEmpty]
  have hall : ((natDigits n).map digitChar).all Char.isDigit = true := by
    rw [List.all_eq_true]
    intro c hc
    rw [List.mem_map] at hc
    obtain ⟨d, hd, rfl⟩ := hc
    exact (digitChar_facts d (natDigits_lt_ten n d hd)).1
  simp only [hne, hall, Bool.not_false, Bool.and_self, if_true]
  rw [foldl_map_digitChar (natDigits n) (natDigits_lt_ten n) 0, foldl_natDigits]

theorem intKeyed_saved :
    ∀ (w : List (Nat × Nat)) (acc : List (Nat × Json)),
      (w.map Prod.fst).Nodup → (∀ p ∈ w, p.1 ∉ dictKeys acc) →
      intKeyed (w.map (fun p => (pyStr p.1, Json.jnum (Int.ofNat p.2)))) acc =
        .ok (acc ++ w.map (fun p => (p.1, Json.jnum (Int.ofNat p.2)))) := by
  intro w
  induction w with
  | nil => intro acc _ _; simp [intKeyed]
  | cons p w ih =>
    intro acc hnd hfresh
    obtain ⟨k, v⟩ := p
    simp only [List.map_cons, intKeyed, pyIntParse_pyStr]
    rw [dictSet_of_not_mem acc k _ (hfresh (k, v) (List.mem_cons_self _ _))]
    simp only [List.map_cons, List.nodup_cons] at hnd
    rw [ih (acc ++ [(k, Json.jnum (Int.ofNat v))]) hnd.2 ?_]
    · simp
    · intro q hq
      have h1 : q.1 ∉ dictKeys acc := hfresh q (List.mem_cons_of_mem _ hq)
      have h2 : q.1 ≠ k := by
        intro hqk
        exact hnd.1 (hqk ▸ List.mem_map_of_mem Prod.fst hq)
      simp [dictKeys, List.mem_append, h2]
      simpa [dictKeys] using h1

theorem winsOfLoaded_mapped (w : List (Nat × Nat)) :
    winsOfLoaded (w.map (fun p => (p.1, Json.jnum (Int.ofNat p.2)))) = some w := by
  induction w with
  | nil => rfl
  | cons p w ih =>
    obtain ⟨k, v⟩ := p
    have hstep : winsOfLoaded ((k, Json.jnum (Int.ofNat v)) ::
        List.map (fun p => (p.1, Json.jnum (Int.ofNat p.2))) w) =
        (winsOfLoaded (List.map (fun p => (p.1, Json.jnum (Int.ofNat p.2))) w)).map
          (fun r => (k, v) :: r) := rfl
    rw [List.map_cons, hstep, ih]
    rfl

theorem set_item_name_active (s : String) (st : GameState) :
    (set_item_name s st).2.is_game_active = st.is_game_active := by
  unfold set_item_name
  split <;> rfl

theorem set_hint_active (n : Nat) (t : String) (st : GameState) :
    (set_hint n t st).2.is_game_active = st.is_game_active := by
  unfold set_hint
  split
  · rfl
  split <;> rfl

theorem set_all_hints_active (s : String) (st : GameState) :
    (set_all_hints s st).2.is_game_active = st.is_game_active := by
  unfold set_all_hints
  split
  · rfl
  dsimp only
  split <;> rfl

theorem set_hint_timing_active (m : Nat) (st : GameState) :
    (set_hint_timing m st).2.is_game_active = st.is_game_active := by
  unfold set_hint_timing
  split
  · rfl
  split <;> rfl

theorem applyConfig_is_game_active (c : ConfigStep) (st : GameState) :
    (applyConfig c st).is_game_active = st.is_game_active := by
  cases c with
  | setItem s => exact set_item_name_active s st
  | setHint n t => exact set_hint_active n t st
  | setAllHints s => exact set_all_hints_active s st
  | setTiming m => exact set_hint_timing_active m st

theorem applyConfigs_is_game_active (steps : List ConfigStep) :
    ∀ st : GameState, (applyConfigs steps st).is_game_active = st.is_game_active := by
  induction steps with
  | nil => intro st; rfl
  | cons c steps ih =>
    intro st
    rw [applyConfigs, List.foldl_cons]
    rw [show List.foldl (fun s c => applyConfig c s) (applyConfig c st) steps =
      applyConfigs steps (applyConfig c st) from rfl]
    rw [ih, applyConfig_is_game_active]

theorem set_item_name_storageInv (s : String) (st : GameState) (h : StorageInv st) :
    StorageInv (set_item_name s st).2 := by
  unfold set_item_name
  split
  · exact h
  · exact h

theorem set_hint_storageInv (n : Nat) (t : String) (st : GameState) (h : StorageInv st) :
    StorageInv (set_hint n t st).2 := by
  unfold set_hint
  split
  · exact h
  split
  · exact h
  rename_i hguard
  simp only [Bool.not_eq_true', Bool.not_eq_false, Bool.and_eq_true, decide_eq_true_eq]
    at hguard
  unfold StorageInv
  dsimp only
  rw [dictKeys_dictSet]
  constructor
  · split
    · exact h.1
    · rename_i hmem
      simp [List.nodup_append, h.1, hmem]
  · intro k hk
    revert hk
    split
    · intro hk
      exact h.2 k hk
    · intro hk
      rcases List.mem_append.mp hk with h1 | h2
      · exact h.2 k h1
      · simp only [List.mem_singleton] at h2
        subst h2
        exact hguard

theorem set_all_hints_storageInv (s : String) (st : GameState) (h : StorageInv st) :
    StorageInv (set_all_hints s st).2 := by
  unfold set_all_hints
  split
  · exact h
  dsimp only
  split
  · exact h
  rename_i hlen
  push_neg at hlen
  set lines := ((splitOnChar '\n' s.toList).map pyStripList).filter
    (fun l => !l.isEmpty) with hlines
  have hlenr : (List.range' 1 lines.length).length ≤ (lines.map String.mk).length := by
    simp
  have hfst : ((List.zip (List.range' 1 lines.length) (lines.map String.mk)).map
      Prod.fst) = List.range' 1 lines.length :=
    List.map_fst_zip _ _ hlenr
  have hnd : ((List.zip (List.range' 1 lines.length) (lines.map String.mk)).map
      Prod.fst).Nodup := by
    rw [hfst]
    exact List.nodup_range' _ _
  have hfold := foldl_dictSet_fresh
    (List.zip (List.range' 1 lines.length) (lines.map String.mk)) []
    (by intro p _; simp [dictKeys]) hnd
  unfold StorageInv
  dsimp only
  rw [show dictKeys ((List.zip (List.range' 1 lines.length)
      (lines.map String.mk)).foldl (fun d p => dictSet d p.1 p.2) []) =
    ((List.zip (List.range' 1 lines.length) (lines.map String.mk)).map
      Prod.fst) from by rw [hfold]; rfl]
  rw [hfst]
  constructor
  · exact List.nodup_range' _ _
  · intro k hk
    rw [hlen] at hk
    have := List.mem_range'_1.mp hk
    omega

theorem set_hint_timing_storageInv (m : Nat) (st : GameState) (h : StorageInv st) :
    StorageInv (set_hint_timing m st).2 := by
  unfold set_hint_timing
  split
  · exact h
  split
  · exact h
  · exact h

theorem applyConfig_storageInv (c : ConfigStep) (st : GameState)
    (h : StorageInv st) : StorageInv (applyConfig c st) := by
  cases c with
  | setItem s => exact set_item_name_storageInv s st h
  | setHint n t => exact set_hint_storageInv n t st h
  | setAllHints s => exact set_all_hints_storageInv s st h
  | setTiming m => exact set_hint_timing_storageInv m st h

theorem applyConfigs_storageInv (steps : List ConfigStep) :
    ∀ st : GameState, StorageInv st → StorageInv (applyConfigs steps st) := by
  induction steps with
  | nil => intro st h; exact h
  | cons c steps ih =>
    intro st h
    rw [applyConfigs, List.foldl_cons]
    exact ih (applyConfig c st) (applyConfig_storageInv c st h)

theorem storage_complete_iff (st : GameState) (h : StorageInv st) :
    st.current_hints_storage.length = REQUIRED_HINTS ↔
      (dictKeys st.current_hints_storage).Perm (List.range' 1 REQUIRED_HINTS) := by
  constructor
  · intro hlen
    have hsub : List.Subperm (dictKeys st.current_hints_storage)
        (List.range' 1 REQUIRED_HINTS) := by
      refine List.subperm_of_subset h.1 ?_
      intro x hx
      have hb := h.2 x hx
      rw [List.mem_range'_1]
      omega
    refine hsub.perm_of_length_le ?_
    simp [dictKeys, hlen]
  · intro hperm
    have hl := hperm.length_eq
    simpa [dictKeys] using hl

theorem start_game_config_spec (st : GameState) (now : Int)
    (hina : st.is_game_active = false) (hinv : StorageInv st) :
    ((start_game true now st).1 = StartResult.ok ↔
      st.correct_answer.isSome = true ∧
      (dictKeys st.current_hints_storage).Perm (List.range' 1 REQUIRED_HINTS)) ∧
    ((start_game true now st).1 ≠ StartResult.ok →
      (start_game true now st).1 = StartResult.roundIncomplete ∧
      (start_game true now st).2 = st) := by
  cases hans : st.correct_answer with
  | none =>
    have hres : start_game true now st = (StartResult.roundIncomplete, st) := by
      unfold start_game
      simp [hina, hans]
    rw [hres]
    constructor
    · constructor
      · intro h
        simp at h
      · intro h
        simp at h
    · intro _
      exact ⟨rfl, rfl⟩
  | some ans =>
    by_cases hlen : st.current_hints_storage.length = REQUIRED_HINTS
    · have hperm := (storage_complete_iff st hinv).mp hlen
      have h1mem : (1 : Nat) ∈ dictKeys st.current_hints_storage :=
        hperm.mem_iff.mpr (by decide)
      have hlook := (dictLookup_isSome_iff st.current_hints_storage 1).mpr h1mem
      obtain ⟨first, hfirst⟩ := Option.isSome_iff_exists.mp hlook
      have hres : (start_game true now st).1 = StartResult.ok := by
        unfold start_game
        simp [hina, hans, hlen, hfirst]
      constructor
      · constructor
        · intro _
          exact ⟨rfl, hperm⟩
        · intro _
          exact hres
      · intro hne
        exact absurd hres hne
    · have hres : start_game true now st = (StartResult.roundIncomplete, st) := by
        unfold start_game
        simp [hina, hans, hlen]
      rw [hres]
      constructor
      · constructor
        · intro h
          simp at h
        · intro h
          exact absurd ((storage_complete_iff st hinv).mpr h.2) hlen
      · intro _
        exact ⟨rfl, rfl⟩

/-- C1: for every sequence of configuration calls (set item, set hint, set all
hints, set timing) applied to the non-active game, the start operation
succeeds if and only if the item name is set and the hint storage holds
exactly REQUIRED_HINTS entries for the indices 1..REQUIRED_HINTS; otherwise
it returns the RoundIncomplete reply and leaves the state, in particular its
inactivity, unchanged. -/
theorem activate_iff_round_complete (steps : List ConfigStep) (now : Int) :
    ((start_game true now (applyConfigs steps initState)).1 = StartResult.ok ↔
      (applyConfigs steps initState).correct_answer.isSome = true ∧
      (dictKeys (applyConfigs steps initState).current_hints_storage).Perm
        (List.range' 1 REQUIRED_HINTS)) ∧
    ((start_game true now (applyConfigs steps initState)).1 ≠ StartResult.ok →
      (start_game true now (applyConfigs steps initState)).1 = StartResult.roundIncomplete ∧
      (start_game true now (applyConfigs steps initState)).2 = applyConfigs steps initState ∧
      (applyConfigs steps initState).is_game_active = false) := by
  have hina : (applyConfigs steps initState).is_game_active = false := by
    rw [applyConfigs_is_game_active]
    rfl
  have hinv : StorageInv (applyConfigs steps initState) :=
    applyConfigs_storageInv steps initState (by constructor <;> simp [initState, dictKeys])
  have h := start_game_config_spec (applyConfigs steps initState) now hina hinv
  exact ⟨h.1, fun hne => ⟨(h.2 hne).1, (h.2 hne).2, hina⟩⟩

/-- C2 (amended): activating a round does not clear the per-user cooldown
table; start_game leaves last_guess_time exactly as it found it on every
branch, so timestamps persist across rounds. -/
theorem start_game_keeps_cooldown_table (channel_ok : Bool) (now : Int) (st : GameState) :
    (start_game channel_ok now st).2.last_guess_time = st.last_guess_time := by
  unfold start_game
  repeat' split
  all_goals rfl

/-- C2 (counterexample): a concrete run in which user 42 guesses during the
first round, a second round is configured and activated, and the first guess
user 42 submits after that activation is rejected with CooldownActive from
the timestamp of the previous round, while the claim says the table is
cleared on every activation. -/
theorem cooldown_survives_activation :
    (runSteps carriedCooldownSteps).is_game_active = true ∧
    (runSteps carriedCooldownSteps).last_guess_time = [(42, 10), (7, 20)] ∧
    (guess_item false true [] 42 "mango" 130 (runSteps carriedCooldownSteps)).1 =
      GuessResult.cooldownActive 1680 := by
  refine ⟨by decide, by decide, by decide⟩

theorem storageInv_congr (s1 s2 : GameState)
    (h : s1.current_hints_storage = s2.current_hints_storage) :
    StorageInv s1 ↔ StorageInv s2 := by
  unfold StorageInv
  rw [h]

theorem revealedSeq_congr (s1 s2 : GameState)
    (h : s1.current_hints_revealed = s2.current_hints_revealed) :
    RevealedSeq s1 ↔ RevealedSeq s2 := by
  unfold RevealedSeq
  rw [h]

theorem set_item_name_revealed (s : String) (st : GameState) :
    (set_item_name s st).2.current_hints_revealed = st.current_hints_revealed := by
  unfold set_item_name
  split <;> rfl

theorem set_hint_revealed (n : Nat) (t : String) (st : GameState) :
    (set_hint n t st).2.current_hints_revealed = st.current_hints_revealed := by
  unfold set_hint
  split
  · rfl
  split <;> rfl

theorem set_all_hints_revealed (s : String) (st : GameState) :
    (set_all_hints s st).2.current_hints_revealed = st.current_hints_revealed := by
  unfold set_all_hints
  split
  · rfl
  dsimp only
  split <;> rfl

theorem set_hint_timing_revealed (m : Nat) (st : GameState) :
    (set_hint_timing m st).2.current_hints_revealed = st.current_hints_revealed := by
  unfold set_hint_timing
  split
  · rfl
  split <;> rfl

theorem applyConfig_revealed (c : ConfigStep) (st : GameState) :
    (applyConfig c st).current_hints_revealed = st.current_hints_revealed := by
  cases c with
  | setItem s => exact set_item_name_revealed s st
  | setHint n t => exact set_hint_revealed n t st
  | setAllHints s => exact set_all_hints_revealed s st
  | setTiming m => exact set_hint_timing_revealed m st

theorem revealedSeqL_append (l : List RevealedHint) (t : String)
    (h1 : l.map RevealedHint.hint_number = List.range' 1 l.length)
    (hle : l.length + 1 ≤ REQUIRED_HINTS) :
    (l ++ [(⟨l.length + 1, t⟩ : RevealedHint)]).map RevealedHint.hint_number =
      List.range' 1 (l ++ [(⟨l.length + 1, t⟩ : RevealedHint)]).length ∧
    (l ++ [(⟨l.length + 1, t⟩ : RevealedHint)]).length ≤ REQUIRED_HINTS := by
  constructor
  · rw [List.map_append, h1, List.length_append]
    simp only [List.map_cons, List.map_nil, List.length_cons, List.length_nil]
    rw [List.range'_concat]
    simp [Nat.add_comm]
  · simpa using hle

theorem hint_timer_revealed_cases (r c : Bool) (now : Int) (st : GameState) :
    hint_timer r c now st = st ∨
    ∃ t, dictLookup st.current_hints_storage (st.current_hints_revealed.length + 1) =
        some t ∧
      hint_timer r c now st = { st with
        current_hints_revealed := st.current_hints_revealed ++
          [(⟨st.current_hints_revealed.length + 1, t⟩ : RevealedHint)]
        last_hint_reveal_time := some now } := by
  unfold hint_timer
  dsimp only
  split
  · exact Or.inl rfl
  split
  · exact Or.inl rfl
  split
  · split
    · rename_i hint_text hlook
      split
      · exact Or.inr ⟨hint_text, hlook, rfl⟩
      · exact Or.inl rfl
    · exact Or.inl rfl
  · exact Or.inl rfl

theorem reveal_hint_manual_revealed_cases (c : Bool) (now : Int) (st : GameState) :
    (reveal_hint_manual c now st).2 = st ∨
    (st.current_hints_revealed.length + 1 ≤ REQUIRED_HINTS ∧
      ∃ t, dictLookup st.current_hints_storage (st.current_hints_revealed.length + 1) =
          some t ∧
        (reveal_hint_manual c now st).2 = { st with
          current_hints_revealed := st.current_hints_revealed ++
            [(⟨st.current_hints_revealed.length + 1, t⟩ : RevealedHint)]
          last_hint_reveal_time := some now }) := by
  unfold reveal_hint_manual
  dsimp only
  split
  · exact Or.inl rfl
  split
  · exact Or.inl rfl
  · rename_i hgate
    push_neg at hgate
    split
    · rename_i hint_text hlook
      split
      · exact Or.inr ⟨hgate, hint_text, hlook, rfl⟩
      · exact Or.inl rfl
    · exact Or.inl rfl

theorem start_game_state_cases (ch : Bool) (now : Int) (st : GameState) :
    (start_game ch now st).2.current_hints_storage = st.current_hints_storage ∧
    ((start_game ch now st).2.current_hints_revealed = st.current_hints_revealed ∨
      (start_game ch now st).2.current_hints_revealed = [] ∨
      ∃ t, dictLookup st.current_hints_storage 1 = some t ∧
        (start_game ch now st).2.current_hints_revealed = [(⟨1, t⟩ : RevealedHint)]) := by
  unfold start_game
  split
  · exact ⟨rfl, Or.inl rfl⟩
  split
  · exact ⟨rfl, Or.inl rfl⟩
  split
  · exact ⟨rfl, Or.inr (Or.inl rfl)⟩
  · rename_i first hlook
    split
    · exact ⟨rfl, Or.inr (Or.inr ⟨first, hlook, rfl⟩)⟩
    · exact ⟨rfl, Or.inr (Or.inl rfl)⟩

theorem guess_item_check_state_cases (gk : Bool) (roles : List Nat) (user : Nat)
    (g : String) (st1 : GameState) :
    (guess_item_check gk roles user g st1).2.current_hints_storage =
      st1.current_hints_storage ∧
    ((guess_item_check gk roles user g st1).2.current_hints_revealed =
        st1.current_hints_revealed ∨
      (guess_item_check gk roles user g st1).2.current_hints_revealed = []) := by
  unfold guess_item_check
  split
  · exact ⟨rfl, Or.inl rfl⟩
  split
  · exact ⟨rfl, Or.inr rfl⟩
  · exact ⟨rfl, Or.inl rfl⟩

theorem guess_item_state_cases (wc gk : Bool) (roles : List Nat) (user : Nat)
    (g : String) (now : Int) (st : GameState) :
    (guess_item wc gk roles user g now st).2.current_hints_storage =
      st.current_hints_storage ∧
    ((guess_item wc gk roles user g now st).2.current_hints_revealed =
        st.current_hints_revealed ∨
      (guess_item wc gk roles user g now st).2.current_hints_revealed = []) := by
  unfold guess_item
  split
  · exact ⟨rfl, Or.inl rfl⟩
  split
  · exact ⟨rfl, Or.inl rfl⟩
  split
  · split
    · exact ⟨rfl, Or.inl rfl⟩
    · exact guess_item_check_state_cases gk roles user g _
  · exact guess_item_check_state_cases gk roles user g _

theorem stepInv_applyStep (p : Step) (st : GameState) (h : StepInv st) :
    StepInv (applyStep p st) := by
  cases p with
  | config c =>
    exact ⟨applyConfig_storageInv c st h.1,
      (revealedSeq_congr _ _ (applyConfig_revealed c st)).mpr h.2⟩
  | start ch now =>
    obtain ⟨hsto, hrev⟩ := start_game_state_cases ch now st
    refine ⟨(storageInv_congr _ _ hsto).mpr h.1, ?_⟩
    rcases hrev with h1 | h1 | ⟨t, _, h1⟩
    · exact (revealedSeq_congr _ _ h1).mpr h.2
    · show RevealedSeq (start_game ch now st).2
      unfold RevealedSeq
      rw [h1]
      exact ⟨by simp, by norm_num [REQUIRED_HINTS]⟩
    · show RevealedSeq (start_game ch now st).2
      unfold RevealedSeq
      rw [h1]
      exact ⟨by simp, by norm_num [REQUIRED_HINTS]⟩
  | tick r ch now =>
    rcases hint_timer_revealed_cases r ch now st with h1 | ⟨t, hlook, h1⟩
    · show StepInv (hint_timer r ch now st)
      rw [h1]
      exact h
    · show StepInv (hint_timer r ch now st)
      rw [h1]
      have hmem : st.current_hints_revealed.length + 1 ∈
          dictKeys st.current_hints_storage := by
        rw [← dictLookup_isSome_iff]
        rw [hlook]
        rfl
      have hle := (h.1.2 _ hmem).2
      exact ⟨h.1, revealedSeqL_append st.current_hints_revealed t h.2.1 hle⟩
  | manualReveal ch now =>
    rcases reveal_hint_manual_revealed_cases ch now st with h1 | ⟨hle, t, hlook, h1⟩
    · show StepInv (reveal_hint_manual ch now st).2
      rw [h1]
      exact h
    · show StepInv (reveal_hint_manual ch now st).2
      rw [h1]
      exact ⟨h.1, revealedSeqL_append st.current_hints_revealed t h.2.1 hle⟩
  | guess wc gk roles user text now =>
    obtain ⟨hsto, hrev⟩ := guess_item_state_cases wc gk roles user text now st
    refine ⟨(storageInv_congr _ _ hsto).mpr h.1, ?_⟩
    rcases hrev with h1 | h1
    · exact (revealedSeq_congr _ _ h1).mpr h.2
    · show RevealedSeq (guess_item wc gk roles user text now st).2
      unfold RevealedSeq
      rw [h1]
      exact ⟨by simp, by norm_num [REQUIRED_HINTS]⟩
  | stop =>
    constructor
    · constructor
      · simp [applyStep, stop_game, dictKeys]
      · simp [applyStep, stop_game, dictKeys]
    · constructor
      · simp [applyStep, stop_game, RevealedSeq]
      · simp [applyStep, stop_game, RevealedSeq]

theorem stepInv_initState : StepInv initState := by
  constructor
  · constructor
    · simp [initState, dictKeys]
    · simp [initState, dictKeys]
  · constructor
    · simp [initState]
    · norm_num [initState, REQUIRED_HINTS]

theorem stepInv_runSteps (steps : List Step) : StepInv (runSteps steps) := by
  have hgen : ∀ (l : List Step) (st : GameState), StepInv st →
      StepInv (l.foldl (fun s p => applyStep p s) st) := by
    intro l
    induction l with
    | nil => intro st h; exact h
    | cons p l ih =>
      intro st h
      rw [List.foldl_cons]
      exact ih (applyStep p st) (stepInv_applyStep p st h)
  exact hgen steps initState stepInv_initState

/-- C3: over every reachable state, the revealed hint indices are exactly the
sequence 1, 2, ..., len with len at most REQUIRED_HINTS (no index skipped,
repeated, reordered or beyond the last hint), and each reveal operation,
timer tick or manual, either leaves hints_revealed alone or appends exactly
the entry with index len+1. -/
theorem hints_revealed_sequential (steps : List Step) :
    ((runSteps steps).current_hints_revealed.map RevealedHint.hint_number =
      List.range' 1 (runSteps steps).current_hints_revealed.length ∧
      (runSteps steps).current_hints_revealed.length ≤ REQUIRED_HINTS) ∧
    (∀ r c now, (hint_timer r c now (runSteps steps)).current_hints_revealed =
        (runSteps steps).current_hints_revealed ∨
      ∃ t, (hint_timer r c now (runSteps steps)).current_hints_revealed =
        (runSteps steps).current_hints_revealed ++
          [(⟨(runSteps steps).current_hints_revealed.length + 1, t⟩ : RevealedHint)]) ∧
    (∀ c now, (reveal_hint_manual c now (runSteps steps)).2.current_hints_revealed =
        (runSteps steps).current_hints_revealed ∨
      ∃ t, (reveal_hint_manual c now (runSteps steps)).2.current_hints_revealed =
        (runSteps steps).current_hints_revealed ++
          [(⟨(runSteps steps).current_hints_revealed.length + 1, t⟩ : RevealedHint)]) := by
  have hinv := stepInv_runSteps steps
  refine ⟨hinv.2, ?_, ?_⟩
  · intro r c now
    rcases hint_timer_revealed_cases r c now (runSteps steps) with h1 | ⟨t, _, h1⟩
    · exact Or.inl (by rw [h1])
    · exact Or.inr ⟨t, by rw [h1]⟩
  · intro c now
    rcases reveal_hint_manual_revealed_cases c now (runSteps steps) with h1 | ⟨_, t, _, h1⟩
    · exact Or.inl (by rw [h1])
    · exact Or.inr ⟨t, by rw [h1]⟩

/-- C4: one timer tick reveals at most one hint however much time has
elapsed; a tick before the due time (last actual reveal plus the interval)
changes nothing; and on the first eligible tick after any gap exactly the one
next hint is revealed and the reveal time is restamped to that tick's now, so
the following due time is measured from now. -/
theorem hint_timer_single_catchup (ready channel_ok : Bool) (now : Int) (st : GameState) :
    ((hint_timer ready channel_ok now st).current_hints_revealed.length ≤
      st.current_hints_revealed.length + 1) ∧
    (∀ last : Int, st.last_hint_reveal_time = some last →
      now < last + minutesToSeconds st.hint_timing_minutes →
      hint_timer ready channel_ok now st = st) ∧
    (∀ last : Int, ready = true → channel_ok = true → st.is_game_active = true →
      st.last_hint_reveal_time = some last →
      st.current_hints_storage.isEmpty = false →
      now ≥ last + minutesToSeconds st.hint_timing_minutes →
      ∀ t, dictLookup st.current_hints_storage
          (st.current_hints_revealed.length + 1) = some t →
        hint_timer ready channel_ok now st = { st with
          current_hints_revealed := st.current_hints_revealed ++
            [(⟨st.current_hints_revealed.length + 1, t⟩ : RevealedHint)]
          last_hint_reveal_time := some now }) := by
  refine ⟨?_, ?_, ?_⟩
  · rcases hint_timer_revealed_cases ready channel_ok now st with h1 | ⟨t, _, h1⟩
    · rw [h1]
      omega
    · rw [h1]
      simp
  · intro last hlast hlt
    unfold hint_timer
    split
    · rfl
    · simp only [hlast]
      rw [if_neg (by omega)]
  · intro last hr hc hact hlast hne hge t hlook
    unfold hint_timer
    rw [if_neg ?_]
    · simp only [hlast]
      rw [if_pos hge]
      simp only [hlook, hc, if_true]
    · simp [hr, hact, hlast, hne]

theorem guess_item_check_lgt (gk : Bool) (roles : List Nat) (user : Nat)
    (g : String) (st1 : GameState) :
    (guess_item_check gk roles user g st1).2.last_guess_time = st1.last_guess_time := by
  unfold guess_item_check
  split
  · rfl
  split <;> rfl

theorem guess_item_submit_lgt (gk : Bool) (roles : List Nat) (user : Nat)
    (g : String) (now : Int) (st : GameState) :
    (guess_item_submit gk roles user g now st).2.last_guess_time =
      dictSet st.last_guess_time user now := by
  unfold guess_item_submit
  rw [guess_item_check_lgt]

/-- C5: an active-round guess from a user whose previous stamped guess lies
within the cooldown window is rejected with CooldownActive carrying the wait
computed from that previous timestamp, and the rejection leaves the state,
in particular the cooldown entry, untouched; while every guess that passes
the gate (no stamp, or a stamp at least the window ago) restamps the user's
entry to now whether the guess turns out right or wrong. -/
theorem guess_cooldown_policy (gk : Bool) (roles : List Nat) (user : Nat)
    (g : String) (now : Int) (st : GameState) :
    (∀ t : Int, st.is_game_active = true →
      dictLookup st.last_guess_time user = some t →
      now - t < minutesToSeconds GUESS_COOLDOWN_MINUTES →
      guess_item false gk roles user g now st =
        (GuessResult.cooldownActive
          (minutesToSeconds GUESS_COOLDOWN_MINUTES - (now - t)), st)) ∧
    (st.is_game_active = true →
      (dictLookup st.last_guess_time user = none ∨
        ∀ t : Int, dictLookup st.last_guess_time user = some t →
          minutesToSeconds GUESS_COOLDOWN_MINUTES ≤ now - t) →
      dictLookup (guess_item false gk roles user g now st).2.last_guess_time user =
        some now) := by
  constructor
  · intro t hact hlook hlt
    unfold guess_item
    simp only [hact, Bool.not_true, Bool.false_eq_true, if_false, hlook]
    rw [if_pos hlt]
  · intro hact hnb
    unfold guess_item
    simp only [hact, Bool.not_true, Bool.false_eq_true, if_false]
    cases hlook : dictLookup st.last_guess_time user with
    | none =>
      simp only [hlook]
      rw [guess_item_submit_lgt]
      exact dictLookup_dictSet_self st.last_guess_time user now
    | some t =>
      have hge : minutesToSeconds GUESS_COOLDOWN_MINUTES ≤ now - t := by
        rcases hnb with h1 | h1
        · rw [hlook] at h1
          exact absurd h1 (by simp)
        · exact h1 t hlook
      simp only [hlook]
      rw [if_neg (by omega), guess_item_submit_lgt]
      exact dictLookup_dictSet_self st.last_guess_time user now

theorem pyLower_strip_eq_iff (g answer : String) :
    pyLower (pyStrip g) = pyLower answer ↔ spec_guess_matches g answer := by
  unfold pyLower pyStrip spec_guess_matches
  constructor
  · intro h
    have h2 := congrArg String.toList h
    simpa using h2
  · intro h
    have : (String.mk (pyStripList g.toList)).toList.map Char.toLower =
        answer.toList.map Char.toLower := by
      simpa using h
    exact congrArg String.mk this

/-- C9: with an active round holding answer A and a guess that passes the
cooldown gate, the guess wins if and only if the guess with leading and
trailing whitespace removed equals A under case-insensitive comparison
(internal whitespace untouched); in particular a guess differing from A only
in letter case wins. -/
theorem guess_correct_iff_case_insensitive (gk : Bool) (roles : List Nat) (user : Nat)
    (g : String) (now : Int) (st : GameState) (answer : String)
    (hact : st.is_game_active = true)
    (hans : st.correct_answer = some answer)
    (hnb : dictLookup st.last_guess_time user = none ∨
      ∀ t : Int, dictLookup st.last_guess_time user = some t →
        minutesToSeconds GUESS_COOLDOWN_MINUTES ≤ now - t) :
    (∃ w r, (guess_item false gk roles user g now st).1 = GuessResult.win w r) ↔
      spec_guess_matches g answer := by
  have hsub : guess_item false gk roles user g now st =
      guess_item_submit gk roles user g now st := by
    unfold guess_item
    simp only [hact, Bool.not_true, Bool.false_eq_true, if_false]
    cases hlook : dictLookup st.last_guess_time user with
    | none => simp only [hlook]
    | some t =>
      have hge : minutesToSeconds GUESS_COOLDOWN_MINUTES ≤ now - t := by
        rcases hnb with h1 | h1
        · rw [hlook] at h1
          exact absurd h1 (by simp)
        · exact h1 t hlook
      simp only [hlook]
      rw [if_neg (by omega)]
  rw [hsub]
  unfold guess_item_submit guess_item_check
  simp only [hans]
  by_cases hmatch : pyLower (pyStrip g) = pyLower answer
  · rw [if_pos hmatch]
    constructor
    · intro _
      exact (pyLower_strip_eq_iff g answer).mp hmatch
    · intro _
      exact ⟨_, _, rfl⟩
  · rw [if_neg hmatch]
    constructor
    · intro hcontra
      obtain ⟨w, r, hw⟩ := hcontra
      exact GuessResult.noConfusion hw
    · intro hspec
      exact absurd ((pyLower_strip_eq_iff g answer).mpr hspec) hmatch

/-- C9 (witness): in a concretely configured active round with answer
"apple", the guess "Apple", differing only in letter case, wins. -/
theorem guess_correct_iff_case_insensitive_witness :
    (∃ w r, (guess_item false true [] 7 "Apple" 600
        (runSteps activeRoundSteps)).1 = GuessResult.win w r) ∧
    spec_guess_matches "Apple" "apple" := by
  have h := guess_correct_iff_case_insensitive true [] 7 "Apple" 600
    (runSteps activeRoundSteps) "apple" (by decide) (by decide) (Or.inl (by decide))
  have hm : spec_guess_matches "Apple" "apple" := by
    unfold spec_guess_matches
    decide
  exact ⟨h.mpr hm, hm⟩

/-- C6 (code_bug evaluation): in a concretely configured and started round, a
correct guess ends the round, clears correct_answer and
current_hints_revealed, and leaves no round active; but the module-level
current_hints_storage is NOT cleared, because the clearing assignment in
guess_item binds a function-local name (the name is missing from the global
declaration), contradicting the reset intent stated in the code's own
comment. -/
theorem win_keeps_hint_storage :
    (guess_item false true [] 7 "Apple" 600 (runSteps activeRoundSteps)).1 =
      GuessResult.win 1 RewardOutcome.applied ∧
    (guess_item false true [] 7 "Apple" 600
      (runSteps activeRoundSteps)).2.is_game_active = false ∧
    (guess_item false true [] 7 "Apple" 600
      (runSteps activeRoundSteps)).2.correct_answer = none ∧
    (guess_item false true [] 7 "Apple" 600
      (runSteps activeRoundSteps)).2.current_hints_revealed = [] ∧
    (guess_item false true [] 7 "Apple" 600
      (runSteps activeRoundSteps)).2.current_hints_storage =
      (runSteps activeRoundSteps).current_hints_storage ∧
    (runSteps activeRoundSteps).current_hints_storage ≠ [] := by
  refine ⟨by decide, by decide, by decide, by decide, by decide, by decide⟩

/-- C7 (amended): a missing persistence file leaves the loaders at the
empty/default state with no warning, and a file that json.load rejects
yields the default inactive state plus the printed corruption warning, with
no exception in either case; this covers unparseable files only, not every
file content. -/
theorem loaders_default_on_missing_or_unparseable :
    load_game_state FileContent.missing defaultGameGlobals =
      .ok (defaultGameGlobals, false) ∧
    load_game_state FileContent.unparseable defaultGameGlobals =
      .ok (defaultGameGlobals, true) ∧
    truthy defaultGameGlobals.is_game_active = false ∧
    load_user_wins FileContent.missing = .ok ([], false) ∧
    load_user_wins FileContent.unparseable = .ok ([], true) := by
  exact ⟨rfl, rfl, rfl, rfl, rfl⟩

/-- C7 (counterexample): two files that parse as JSON but hold ill-typed
fields make the loaders raise an exception to the caller, against the claim
that loading never raises for any file content: a hint map with the
non-numeric key "x" raises ValueError from int, and a top-level JSON array
in the win-ledger file raises AttributeError from .items. -/
theorem loader_raises_on_ill_typed_json :
    load_game_state (FileContent.parsed (Json.jobj
        [("current_hints_storage", Json.jobj [("x", Json.jstr "h")])]))
      defaultGameGlobals = .error PyErr.valueError ∧
    load_user_wins (FileContent.parsed (Json.jarr [])) =
      .error PyErr.attributeError := by
  exact ⟨rfl, rfl⟩

theorem guess_item_check_reward (roles : List Nat) (user : Nat) (g : String)
    (st1 : GameState) :
    (guess_item_check false roles user g st1).2 =
      (guess_item_check true roles user g st1).2 ∧
    (∀ w r, (guess_item_check false roles user g st1).1 = GuessResult.win w r →
      r = RewardOutcome.failedReported ∧
      (guess_item_check true roles user g st1).1 =
        GuessResult.win w RewardOutcome.applied ∧
      w = (dictLookup st1.user_wins user).getD 0 + 1 ∧
      dictLookup (guess_item_check false roles user g st1).2.user_wins user = some w ∧
      (guess_item_check false roles user g st1).2.is_game_active = false) := by
  unfold guess_item_check
  split
  · exact ⟨rfl, fun w r h => GuessResult.noConfusion h⟩
  split
  · refine ⟨rfl, ?_⟩
    intro w r h
    injection h with h1 h2
    subst h1
    subst h2
    refine ⟨rfl, rfl, rfl, ?_, rfl⟩
    exact dictLookup_dictSet_self st1.user_wins user _
  · exact ⟨rfl, fun w r h => GuessResult.noConfusion h⟩

theorem guess_item_reward (roles : List Nat) (user : Nat) (g : String) (now : Int)
    (st : GameState) :
    (guess_item false false roles user g now st).2 =
      (guess_item false true roles user g now st).2 ∧
    (∀ w r, (guess_item false false roles user g now st).1 = GuessResult.win w r →
      r = RewardOutcome.failedReported ∧
      (guess_item false true roles user g now st).1 =
        GuessResult.win w RewardOutcome.applied ∧
      w = (dictLookup st.user_wins user).getD 0 + 1 ∧
      dictLookup (guess_item false false roles user g now st).2.user_wins user =
        some w ∧
      (guess_item false false roles user g now st).2.is_game_active = false) := by
  unfold guess_item
  split
  · exact ⟨rfl, fun w r h => GuessResult.noConfusion h⟩
  split
  · exact ⟨rfl, fun w r h => GuessResult.noConfusion h⟩
  split
  · split
    · exact ⟨rfl, fun w r h => GuessResult.noConfusion h⟩
    · unfold guess_item_submit
      exact guess_item_check_reward roles user g _
  · unfold guess_item_submit
    exact guess_item_check_reward roles user g _

/-- C8: a failed reward step on a winning guess is reported to the caller but
rolls nothing back: the resulting state is identical to the one a successful
reward step produces, the round is ended, and the winner's incremented win
count is stored in the ledger handed to save_user_wins. -/
theorem reward_failure_not_rolled_back (roles : List Nat) (user : Nat) (g : String)
    (now : Int) (st : GameState) (w : Nat) (r : RewardOutcome)
    (hwin : (guess_item false false roles user g now st).1 = GuessResult.win w r) :
    (guess_item false false roles user g now st).2 =
      (guess_item false true roles user g now st).2 ∧
    r = RewardOutcome.failedReported ∧
    (guess_item false true roles user g now st).1 =
      GuessResult.win w RewardOutcome.applied ∧
    w = (dictLookup st.user_wins user).getD 0 + 1 ∧
    dictLookup (guess_item false false roles user g now st).2.user_wins user =
      some w ∧
    (guess_item false false roles user g now st).2.is_game_active = false := by
  have h := guess_item_reward roles user g now st
  have h2 := h.2 w r hwin
  exact ⟨h.1, h2.1, h2.2.1, h2.2.2.1, h2.2.2.2.1, h2.2.2.2.2⟩

/-- C8 (witness): the concrete first-round winner with the reward step
failing: the state equals the reward-success state, the win count reaches 1
and the round is ended. -/
theorem reward_failure_not_rolled_back_witness :
    (guess_item false false [] 7 "apple" 600 (runSteps activeRoundSteps)).2 =
      (guess_item false true [] 7 "apple" 600 (runSteps activeRoundSteps)).2 ∧
    RewardOutcome.failedReported = RewardOutcome.failedReported ∧
    (guess_item false true [] 7 "apple" 600 (runSteps activeRoundSteps)).1 =
      GuessResult.win 1 RewardOutcome.applied ∧
    1 = (dictLookup (runSteps activeRoundSteps).user_wins 7).getD 0 + 1 ∧
    dictLookup (guess_item false false [] 7 "apple" 600
      (runSteps activeRoundSteps)).2.user_wins 7 = some 1 ∧
    (guess_item false false [] 7 "apple" 600
      (runSteps activeRoundSteps)).2.is_game_active = false := by
  exact reward_failure_not_rolled_back [] 7 "apple" 600 (runSteps activeRoundSteps) 1
    RewardOutcome.failedReported (by decide)

/-- C10: saving the win ledger and loading it back yields exactly the same
mapping for every ledger an arbitrary sequence of wins can build (its user
ids are distinct): the loader parses the string JSON keys back to the
integer user ids and keeps every count. -/
theorem user_wins_roundtrip (w : List (Nat × Nat))
    (hnd : (w.map Prod.fst).Nodup) :
    load_user_wins (FileContent.parsed (save_user_wins w)) =
      .ok (w.map (fun p => (p.1, Json.jnum (Int.ofNat p.2))), false) ∧
    winsOfLoaded (w.map (fun p => (p.1, Json.jnum (Int.ofNat p.2)))) = some w := by
  constructor
  · have h := intKeyed_saved w [] hnd (by intro p _; simp [dictKeys])
    have hstep : load_user_wins (FileContent.parsed (save_user_wins w)) =
        match intKeyed (w.map fun p => (pyStr p.1, Json.jnum (Int.ofNat p.2))) [] with
        | .error e => .error e
        | .ok wins => .ok (wins, false) := rfl
    rw [hstep, h]
    simp
  · exact winsOfLoaded_mapped w

/-- C10 (witness): a concrete two-user ledger survives the save and load
round trip unchanged. -/
theorem user_wins_roundtrip_witness :
    load_user_wins (FileContent.parsed (save_user_wins [(42, 3), (7, 1)])) =
      .ok ([(42, Json.jnum 3), (7, Json.jnum 1)], false) ∧
    winsOfLoaded [(42, Json.jnum 3), (7, Json.jnum 1)] = some [(42, 3), (7, 1)] := by
  have h := user_wins_roundtrip [(42, 3), (7, 1)] (by decide)
  exact h
